import Mathlib

/-!
Shallow embedding of the core of the primeqa-common repository
(rate-limit middleware, idempotency middleware, cache cleanup utility,
resilient HTTP client) together with proofs about the claims of its
specification.

Source files embedded:
- src/middlewares/rateLimit.middleware.ts
- src/middlewares/permission.middleware.ts (idempotencyMiddleware part)
- src/utils/cacheCleanup.ts
- src/http/client.ts

Timestamps and millisecond durations are modelled as Int (JS numbers used
as integral milliseconds); JS Map objects are modelled as insertion-ordered
association lists with unique keys.
-/

/-- ErrorCode enum from src/types/api.ts. -/
inductive ErrorCode where
  | VALIDATION_ERROR
  | UNAUTHORIZED
  | FORBIDDEN
  | NOT_FOUND
  | CONFLICT
  | INTERNAL_ERROR
deriving DecidableEq

/-- Structured details objects attached to AppError by the HTTP client:
either a url together with the upstream status, or a url together with the
original error message (src/http/client.ts lines 125 and 158). -/
inductive ErrDetails where
  | urlStatus (url : String) (status : Int)
  | urlOriginalError (url : String) (originalError : String)
deriving DecidableEq

/-- AppError class from src/errors/AppError.ts: code, message, status and
optional structured details. -/
structure AppError where
  code : ErrorCode
  message : String
  status : Int
  details : Option ErrDetails
deriving DecidableEq

/-- Lookup in a JS Map modelled as an association list: the first pair with
the given key, if any (Map.get). -/
def mapGet {α : Type} (s : List (String × α)) (k : String) : Option α :=
  (s.find? (fun p => p.1 == k)).map Prod.snd

/-- Insert or overwrite in a JS Map modelled as an association list
(Map.set): an existing key keeps its position, a new key is appended. -/
def mapSet {α : Type} (s : List (String × α)) (k : String) (v : α) : List (String × α) :=
  if (s.find? (fun p => p.1 == k)).isSome then
    s.map (fun p => if p.1 == k then (k, v) else p)
  else
    s ++ [(k, v)]

/-- Removal from a JS Map modelled as an association list (Map.delete). -/
def mapDelete {α : Type} (s : List (String × α)) (k : String) : List (String × α) :=
  s.filter (fun p => !(p.1 == k))

/-- Character-list whitespace trim used to model the JS String.prototype.trim
call: drop leading and trailing whitespace. -/
def wsTrim (l : List Char) : List Char :=
  ((l.dropWhile Char.isWhitespace).reverse.dropWhile Char.isWhitespace).reverse

/-- Model of the JS String.prototype.trim method. -/
def strTrim (s : String) : String :=
  String.mk (wsTrim s.data)

/-- Generic lazy one-key eviction shared (textually identical) by
cleanupIfExpired in src/middlewares/rateLimit.middleware.ts and
cleanIfExpired in the idempotency middleware: look the key up and delete
the entry when its expiry is at or before now. -/
def cleanupExpiredKey {α : Type} (expOf : α → Int) (key : String) (now : Int)
    (s : List (String × α)) : List (String × α) :=
  match mapGet s key with
  | some e => if expOf e ≤ now then mapDelete s key else s
  | none => s

/-- Generic sweep shared by _cleanupRateLimitCache and
_cleanupIdempotencyCache: iterate over the keys of the store and apply the
one-key eviction to each. The source iterates the live Map keys while only
ever deleting the key under the cursor, which visits exactly the keys
present at the start, so folding over a snapshot of the key list is a
faithful model. -/
def sweepStore {α : Type} (expOf : α → Int) (now : Int)
    (s : List (String × α)) : List (String × α) :=
  (s.map Prod.fst).foldl (fun acc key => cleanupExpiredKey expOf key now acc) s

/-- Entry record of the rate limiter store
(src/middlewares/rateLimit.middleware.ts lines 13-16). -/
structure Entry where
  count : Int
  expiresAt : Int
deriving DecidableEq

/-- Rate limiter store: module-level Map from key to Entry. -/
abbrev RLStore := List (String × Entry)

/-- Function cleanupIfExpired from src/middlewares/rateLimit.middleware.ts
lines 20-25. -/
def cleanupIfExpired (key : String) (now : Int) (s : RLStore) : RLStore :=
  cleanupExpiredKey Entry.expiresAt key now s

/-- Function _cleanupRateLimitCache from
src/middlewares/rateLimit.middleware.ts lines 27-31. -/
def _cleanupRateLimitCache (now : Int) (s : RLStore) : RLStore :=
  sweepStore Entry.expiresAt now s

/-- Decision of one rate limiter check: either next() with no argument
(allow) or next(err) with an AppError (deny). -/
inductive RLDecision where
  | allow
  | deny (err : AppError)
deriving DecidableEq

/-- Body of the middleware returned by rateLimit, for one request whose key
is already computed (src/middlewares/rateLimit.middleware.ts lines 42-61):
lazily evict the key, then allow with a fresh count-1 entry when absent,
deny with AppError(FORBIDDEN, message, 429) when count has reached max, and
otherwise increment the count in place. Returns the decision and the
updated store. -/
def rateLimitCheck (windowMs max : Int) (message : String) (key : String)
    (now : Int) (store : RLStore) : RLDecision × RLStore :=
  let store1 := cleanupIfExpired key now store
  match mapGet store1 key with
  | none => (RLDecision.allow, mapSet store1 key ⟨1, now + windowMs⟩)
  | some entry =>
    if max ≤ entry.count then
      (RLDecision.deny ⟨ErrorCode.FORBIDDEN, message, 429, none⟩, store1)
    else
      (RLDecision.allow, mapSet store1 key ⟨entry.count + 1, entry.expiresAt⟩)

/-- Full middleware body including the key computation
(src/middlewares/rateLimit.middleware.ts lines 42-46): the caller-supplied
keyGenerator runs before any store access and outside any try/catch, so a
thrown exception (modelled with Except) aborts the handler before the store
is read or written and propagates to the caller. -/
def rateLimitHandle {Req E : Type} (windowMs max : Int) (message : String)
    (keyGenerator : Req → Except E String) (req : Req) (now : Int)
    (store : RLStore) : Except E RLDecision × RLStore :=
  match keyGenerator req with
  | Except.error e => (Except.error e, store)
  | Except.ok key =>
    let r := rateLimitCheck windowMs max message key now store
    (Except.ok r.1, r.2)

/-- Store reached after the first n checks of a fixed key, with check i
performed at time t i (iteration of rateLimitCheck, used to state the
window claims). -/
def rlStateAfter (windowMs max : Int) (message key : String) (t : Nat → Int)
    (s0 : RLStore) : Nat → RLStore
  | 0 => s0
  | n + 1 =>
    (rateLimitCheck windowMs max message key (t n)
      (rlStateAfter windowMs max message key t s0 n)).2

/-- Decision of check n (0-indexed) in the iteration of rateLimitCheck. -/
def rlDecisionAt (windowMs max : Int) (message key : String) (t : Nat → Int)
    (s0 : RLStore) (n : Nat) : RLDecision :=
  (rateLimitCheck windowMs max message key (t n)
    (rlStateAfter windowMs max message key t s0 n)).1

/-- CachedResponse record of the idempotency middleware
(src/middlewares/permission.middleware.ts lines 53-58 of the glued file). -/
structure CachedResponse (Body : Type) where
  status : Int
  headers : List (String × String)
  body : Body
  expiresAt : Int
deriving DecidableEq

/-- Idempotency store: module-level Map from key to CachedResponse. -/
abbrev IdemStore (Body : Type) := List (String × CachedResponse Body)

/-- Function cleanIfExpired of the idempotency middleware. -/
def cleanIfExpired {Body : Type} (key : String) (now : Int)
    (c : IdemStore Body) : IdemStore Body :=
  cleanupExpiredKey CachedResponse.expiresAt key now c

/-- Function _cleanupIdempotencyCache of the idempotency middleware. -/
def _cleanupIdempotencyCache {Body : Type} (now : Int)
    (c : IdemStore Body) : IdemStore Body :=
  sweepStore CachedResponse.expiresAt now c

/-- One response-emission call (res.send or res.json) made by the
downstream handler: the status code and Content-Type header in force at
emission time, and the emitted body. -/
structure Emission (Body : Type) where
  status : Int
  contentType : Option String
  body : Body
deriving DecidableEq

/-- Header subset captured by captureAndStore: the Content-Type header when
it is a string, nothing otherwise. -/
def captureHeaders (contentType : Option String) : List (String × String) :=
  match contentType with
  | some ct => [("Content-Type", ct)]
  | none => []

/-- Function captureAndStore of the idempotency middleware: record status,
captured headers, body and expiry now + ttlMs under the key. -/
def captureAndStore {Body : Type} (key : String) (now ttlMs : Int)
    (e : Emission Body) (c : IdemStore Body) : IdemStore Body :=
  mapSet c key ⟨e.status, captureHeaders e.contentType, e.body, now + ttlMs⟩

/-- Wrapped res.send / res.json over the whole request lifecycle: the
handler performs a sequence of emissions; the boolean models the stored
flag, so only the first emission is captured and every later one is
forwarded without touching the cache. -/
def recordEmissions {Body : Type} (key : String) (now ttlMs : Int) :
    List (Emission Body) → Bool → IdemStore Body → IdemStore Body
  | [], _, c => c
  | e :: rest, stored, c =>
    if stored then recordEmissions key now ttlMs rest true c
    else recordEmissions key now ttlMs rest true (captureAndStore key now ttlMs e c)

/-- Client-visible outcome of one request through the idempotency
middleware: a replay of a cached record, or pass-through of the handler
emissions. -/
inductive IdemResponse (Body : Type) where
  | replayed (status : Int) (headers : List (String × String)) (body : Body)
  | passthrough (emissions : List (Emission Body))
deriving DecidableEq

/-- Result of one request through the idempotency middleware: whether the
downstream handler (business logic) executed, what the client sees, and
the cache afterwards. -/
structure IdemResult (Body : Type) where
  handlerRan : Bool
  response : IdemResponse Body
  cache : IdemStore Body
deriving DecidableEq

/-- Body of the middleware returned by idempotencyMiddleware for one
request (src/middlewares/permission.middleware.ts lines 82-132 of the glued
file): non-POST and missing or whitespace-only keys pass through; a cached
unexpired record is replayed without running the handler; otherwise the
handler runs with its first emission captured under the trimmed key. -/
def idempotencyStep {Body : Type} (ttlMs : Int) (method : String)
    (idemHeader : Option String) (now : Int) (handler : List (Emission Body))
    (cache : IdemStore Body) : IdemResult Body :=
  if method ≠ "POST" then ⟨true, IdemResponse.passthrough handler, cache⟩
  else
    match idemHeader with
    | none => ⟨true, IdemResponse.passthrough handler, cache⟩
    | some raw =>
      let key := strTrim raw
      if key = "" then ⟨true, IdemResponse.passthrough handler, cache⟩
      else
        let cache1 := cleanIfExpired key now cache
        match mapGet cache1 key with
        | some cached =>
          ⟨false, IdemResponse.replayed cached.status cached.headers cached.body, cache1⟩
        | none =>
          ⟨true, IdemResponse.passthrough handler,
            recordEmissions key now ttlMs handler false cache1⟩

/-- Function cleanupExpiredEntries from src/utils/cacheCleanup.ts lines
25-39: the timestamp is Number(process.hrtime.bigint() / 1000000n), that
is, truncated milliseconds of the monotonic process clock (nanoseconds
since process start), and both sweeps are invoked with that monotonic
value even though the entries carry epoch-clock expiries. -/
def cleanupExpiredEntries {Body : Type} (hrtimeNs : Nat) (rl : RLStore)
    (idem : IdemStore Body) : RLStore × IdemStore Body :=
  let now : Int := Int.ofNat (hrtimeNs / 1000000)
  (_cleanupRateLimitCache now rl, _cleanupIdempotencyCache now idem)

/-- Character-level model of the JS String.prototype.toUpperCase call as
used on HTTP method names. -/
def jsToUpperCase (s : String) : String :=
  String.mk (s.data.map Char.toUpper)

/-- Function isRetryableMethod from src/http/client.ts lines 28-30. -/
def isRetryableMethod (method : String) : Bool :=
  ["GET", "HEAD", "OPTIONS"].contains (jsToUpperCase method)

/-- Function isRetryableError from src/http/client.ts lines 32-41, over the
code, name and status fields that may be present on the inspected object. -/
def isRetryableError (code name : Option String) (status : Option Int) : Bool :=
  code == some "ECONNREFUSED" ||
  code == some "ENOTFOUND" ||
  code == some "ETIMEDOUT" ||
  name == some "AbortError" ||
  (match status with
   | some s => decide (500 ≤ s) && !(s == 501)
   | none => false)

/-- Arbitrary JS exception value raised by the network layer, as inspected
by the client: optional code, name, message and status fields. -/
structure JsError where
  code : Option String
  name : Option String
  message : Option String
  status : Option Int
deriving DecidableEq

/-- Successful client result {data, status, headers}
(src/http/client.ts lines 132-136). Body parsing (JSON versus text) is
abstracted: the network oracle already yields the parsed data. -/
structure HttpSuccess (Body : Type) where
  data : Body
  status : Int
  headers : List (String × String)
deriving DecidableEq

/-- Error raised by the client: a classified AppError, the raw HTTP error
object carrying status and data from a non-ok response
(src/http/client.ts lines 110-114), or a propagated JS exception. -/
inductive ClientError (Body : Type) where
  | appError (code : ErrorCode) (message : String) (status : Int) (details : ErrDetails)
  | httpError (status : Int) (statusText : String) (data : Body)
  | jsError (e : JsError)
deriving DecidableEq

/-- Outcome of one fetch invocation as seen by the client: a parsed
response (response.ok is derived as 200 <= status < 300 per the fetch
specification) or a raised exception. -/
inductive FetchOutcome (Body : Type) where
  | response (status : Int) (statusText : String) (data : Body) (headers : List (String × String))
  | exception (e : JsError)
deriving DecidableEq

/-- Decidable equality for Except values, needed to evaluate client runs
on concrete inputs. -/
instance {ε α : Type} [DecidableEq ε] [DecidableEq α] : DecidableEq (Except ε α) := fun a b =>
  match a, b with
  | Except.error e, Except.error f =>
    if h : e = f then Decidable.isTrue (by rw [h])
    else Decidable.isFalse (by intro hc; cases hc; exact h rfl)
  | Except.error _, Except.ok _ => Decidable.isFalse (by intro hc; cases hc)
  | Except.ok _, Except.error _ => Decidable.isFalse (by intro hc; cases hc)
  | Except.ok x, Except.ok y =>
    if h : x = y then Decidable.isTrue (by rw [h])
    else Decidable.isFalse (by intro hc; cases hc; exact h rfl)

/-- Result of processing one attempt inside the for-loop of httpRequest:
either the loop ends with a value or an error (done), or the attempt
schedules a backoff sleep and continues (retryAfter, carrying the delay
and the message recorded into lastError). -/
inductive StepResult (Body : Type) where
  | done (r : Except (ClientError Body) (HttpSuccess Body))
  | retryAfter (delay : Int) (lastMsg : Option String)
deriving DecidableEq

/-- Processing of one loop iteration of httpRequest
(src/http/client.ts lines 82-162) given the fetch outcome of this attempt:
on an ok response return it; on a non-ok response retry when the method is
retryable, attempts remain and the status is retryable, otherwise classify
status >= 500 as the dependency-failure AppError (INTERNAL_ERROR, 503,
details {url, status}) and raise the raw status/body error below 500; on
an exception retry under the analogous conditions, otherwise classify
ECONNREFUSED, ENOTFOUND and AbortError as the dependency-failure AppError
(INTERNAL_ERROR, 503, details {url, originalError}) and propagate any
other exception unmodified. The AppError rethrow guard of the catch block
cannot fire here because network exceptions are JsError values, never
AppError instances. -/
def attemptOutcome {Body : Type} (shouldRetry : Bool) (maxAttempts : Nat)
    (retryDelay : Int) (url : String) (attempt : Nat)
    (oc : FetchOutcome Body) : StepResult Body :=
  match oc with
  | FetchOutcome.response status statusText data headers =>
    if 200 ≤ status ∧ status < 300 then
      StepResult.done (Except.ok ⟨data, status, headers⟩)
    else if shouldRetry = true ∧ attempt < maxAttempts ∧
        isRetryableError none none (some status) = true then
      StepResult.retryAfter (retryDelay * (attempt : Int))
        (some ("HTTP " ++ toString status ++ ": " ++ statusText))
    else if 500 ≤ status then
      StepResult.done (Except.error (ClientError.appError ErrorCode.INTERNAL_ERROR
        ("Dependency service failed: " ++ statusText) 503 (ErrDetails.urlStatus url status)))
    else
      StepResult.done (Except.error (ClientError.httpError status statusText data))
  | FetchOutcome.exception e =>
    if shouldRetry = true ∧ attempt < maxAttempts ∧
        isRetryableError e.code e.name e.status = true then
      StepResult.retryAfter (retryDelay * (attempt : Int)) e.message
    else if e.code = some "ECONNREFUSED" ∨ e.code = some "ENOTFOUND" ∨
        e.name = some "AbortError" then
      StepResult.done (Except.error (ClientError.appError ErrorCode.INTERNAL_ERROR
        "Service unavailable or timed out" 503
        (ErrDetails.urlOriginalError url (e.message.getD "Unknown error"))))
    else
      StepResult.done (Except.error (ClientError.jsError e))

/-- Trace of one httpRequest call: the final result, how many times the
network layer was invoked, and the backoff sleeps performed in order. -/
structure ClientRun (Body : Type) where
  result : Except (ClientError Body) (HttpSuccess Body)
  invocations : Nat
  sleeps : List Int
deriving DecidableEq

/-- Attempt loop of httpRequest (src/http/client.ts lines 82-175),
structured over fuel = remaining loop iterations, with the 1-based attempt
counter and the threaded lastError message. Fuel 0 is the loop exit of
line 164: the post-loop dependency-failure AppError noting the attempt
count. -/
def httpAttempts {Body : Type} (shouldRetry : Bool) (maxAttempts : Nat)
    (retryDelay : Int) (url : String) (net : Nat → FetchOutcome Body) :
    Option String → Nat → Nat → ClientRun Body
  | lastMsg, _, 0 =>
    ⟨Except.error (ClientError.appError ErrorCode.INTERNAL_ERROR
        ("Request failed after " ++ toString maxAttempts ++ " attempts") 503
        (ErrDetails.urlOriginalError url (lastMsg.getD "Unknown error"))),
      0, []⟩
  | _lastMsg, attempt, fuel + 1 =>
    match attemptOutcome shouldRetry maxAttempts retryDelay url attempt (net attempt) with
    | StepResult.done r => ⟨r, 1, []⟩
    | StepResult.retryAfter d m =>
      let rest := httpAttempts shouldRetry maxAttempts retryDelay url net m (attempt + 1) fuel
      ⟨rest.result, rest.invocations + 1, d :: rest.sleeps⟩

/-- Function httpRequest from src/http/client.ts lines 43-175, abstracted
over a network oracle net giving the fetch outcome of each attempt
(1-based): retry eligibility from the method, maxAttempts = retries + 1
for retryable methods and 1 otherwise, then the attempt loop. -/
def httpRequest {Body : Type} (method url : String) (retries : Nat)
    (retryDelay : Int) (net : Nat → FetchOutcome Body) : ClientRun Body :=
  let shouldRetry := isRetryableMethod method
  let maxAttempts := if shouldRetry then retries + 1 else 1
  httpAttempts shouldRetry maxAttempts retryDelay url net none 1 maxAttempts

/-! Lemmas about the association-list model of JS Map. -/

theorem beq_string_false {a b : String} (h : a ≠ b) : (a == b) = false := by
  cases hq : (a == b) with
  | true => exact absurd (eq_of_beq hq) h
  | false => rfl

theorem find?_cons_pos {α : Type} (f : α → Bool) (a : α) (l : List α)
    (h : f a = true) : (a :: l).find? f = some a := by
  simp [List.find?, h]

theorem find?_cons_neg {α : Type} (f : α → Bool) (a : α) (l : List α)
    (h : f a = false) : (a :: l).find? f = l.find? f := by
  simp [List.find?, h]

theorem find?_map_replace {α : Type} (k : String) (v : α) (s : List (String × α))
    (h : (s.find? (fun p => p.1 == k)).isSome = true) :
    (s.map (fun p => if p.1 == k then (k, v) else p)).find? (fun p => p.1 == k)
      = some (k, v) := by
  induction s with
  | nil => simp [List.find?] at h
  | cons p rest ih =>
    rw [List.map_cons]
    by_cases hp : (p.1 == k) = true
    · rw [if_pos hp]
      exact find?_cons_pos (fun q : String × α => q.1 == k) (k, v) _ (by simp)
    · have hp2 : (p.1 == k) = false := by
        cases hz : (p.1 == k) with
        | true => exact absurd hz hp
        | false => rfl
      have h2 : (rest.find? (fun q => q.1 == k)).isSome = true := by
        rw [find?_cons_neg (fun q : String × α => q.1 == k) p rest hp2] at h
        exact h
      rw [if_neg hp, find?_cons_neg (fun q : String × α => q.1 == k) p _ hp2]
      exact ih h2

theorem find?_map_keep {α : Type} (k k' : String) (v : α) (hne : k' ≠ k)
    (s : List (String × α)) :
    (s.map (fun p => if p.1 == k then (k, v) else p)).find? (fun p => p.1 == k')
      = s.find? (fun p => p.1 == k') := by
  induction s with
  | nil => simp
  | cons p rest ih =>
    rw [List.map_cons]
    by_cases hp : (p.1 == k) = true
    · have hkp : p.1 = k := eq_of_beq hp
      have hne2 : ((k, v).1 == k') = false := beq_string_false (fun h => hne h.symm)
      have hne3 : (p.1 == k') = false := by
        rw [hkp]
        exact beq_string_false (fun h => hne h.symm)
      rw [if_pos hp, find?_cons_neg (fun q : String × α => q.1 == k') (k, v) _ hne2,
        find?_cons_neg (fun q : String × α => q.1 == k') p rest hne3]
      exact ih
    · rw [if_neg hp]
      by_cases hq : (p.1 == k') = true
      · rw [find?_cons_pos (fun q : String × α => q.1 == k') p _ hq,
          find?_cons_pos (fun q : String × α => q.1 == k') p rest hq]
      · have hq2 : (p.1 == k') = false := by
          cases hz : (p.1 == k') with
          | true => exact absurd hz hq
          | false => rfl
        rw [find?_cons_neg (fun q : String × α => q.1 == k') p _ hq2,
          find?_cons_neg (fun q : String × α => q.1 == k') p rest hq2]
        exact ih

theorem mapGet_mapSet_self {α : Type} (s : List (String × α)) (k : String) (v : α) :
    mapGet (mapSet s k v) k = some v := by
  cases hf : (s.find? (fun p => p.1 == k)).isSome with
  | true =>
    unfold mapGet mapSet
    rw [if_pos hf, find?_map_replace k v s hf]
    rfl
  | false =>
    have hnone : s.find? (fun p => p.1 == k) = none := by
      cases hg : s.find? (fun p => p.1 == k) with
      | none => rfl
      | some x => rw [hg] at hf; simp at hf
    unfold mapGet mapSet
    rw [if_neg (by rw [hf]; exact Bool.false_ne_true), List.find?_append, hnone]
    simp [List.find?]

theorem mapGet_mapSet_ne {α : Type} (s : List (String × α)) (k k' : String) (v : α)
    (hne : k' ≠ k) : mapGet (mapSet s k v) k' = mapGet s k' := by
  cases hf : (s.find? (fun p => p.1 == k)).isSome with
  | true =>
    unfold mapGet mapSet
    rw [if_pos hf, find?_map_keep k k' v hne s]
  | false =>
    unfold mapGet mapSet
    rw [if_neg (by rw [hf]; exact Bool.false_ne_true), List.find?_append]
    have hk : ([(k, v)].find? (fun p => p.1 == k')) = none := by
      have hne2 : ((k, v).1 == k') = false := beq_string_false (fun h => hne h.symm)
      simp [List.find?, hne2]
    rw [hk]
    cases s.find? (fun p => p.1 == k') <;> rfl

theorem mapGet_mapDelete_self {α : Type} (s : List (String × α)) (k : String) :
    mapGet (mapDelete s k) k = none := by
  unfold mapGet mapDelete
  induction s with
  | nil => simp
  | cons p rest ih =>
    rw [List.filter_cons]
    by_cases hp : (p.1 == k) = true
    · simp only [hp, Bool.not_true, Bool.false_eq_true, if_false]
      exact ih
    · have hp2 : (p.1 == k) = false := by
        cases hz : (p.1 == k) with
        | true => exact absurd hz hp
        | false => rfl
      simp only [hp2, Bool.not_false, if_true]
      rw [find?_cons_neg (fun q : String × α => q.1 == k) p _ hp2]
      exact ih

theorem mapGet_mem {α : Type} (s : List (String × α)) (k : String) (e : α)
    (h : mapGet s k = some e) : (k, e) ∈ s := by
  unfold mapGet at h
  cases hf : s.find? (fun p => p.1 == k) with
  | none => rw [hf] at h; simp at h
  | some pr =>
    rw [hf] at h
    have hm : pr ∈ s := List.mem_of_find?_eq_some hf
    have hk := List.find?_some hf
    have hk2 : pr.1 = k := eq_of_beq (by simpa using hk)
    have he : pr.2 = e := by simpa using h
    have hpr : pr = (k, e) := by
      cases pr with
      | mk a b =>
        simp only [] at hk2 he
        rw [hk2, he]
    rw [← hpr]
    exact hm

/-! Lemmas about lazy eviction and the sweep operations. -/

theorem cleanupExpiredKey_get_none {α : Type} (expOf : α → Int) (key : String)
    (now : Int) (s : List (String × α)) (h : mapGet s key = none) :
    cleanupExpiredKey expOf key now s = s := by
  unfold cleanupExpiredKey
  rw [h]

theorem cleanupExpiredKey_not_expired {α : Type} (expOf : α → Int) (key : String)
    (now : Int) (s : List (String × α)) (e : α) (h : mapGet s key = some e)
    (hlt : now < expOf e) : cleanupExpiredKey expOf key now s = s := by
  unfold cleanupExpiredKey
  rw [h]
  exact if_neg (not_le.mpr hlt)

theorem cleanupExpiredKey_expired {α : Type} (expOf : α → Int) (key : String)
    (now : Int) (s : List (String × α)) (e : α) (h : mapGet s key = some e)
    (hle : expOf e ≤ now) : cleanupExpiredKey expOf key now s = mapDelete s key := by
  unfold cleanupExpiredKey
  rw [h]
  exact if_pos hle

theorem mapGet_none_key {α : Type} (s : List (String × α)) (k : String)
    (h : mapGet s k = none) : ∀ p ∈ s, (p.1 == k) = false := by
  unfold mapGet at h
  have hf : s.find? (fun p => p.1 == k) = none := by
    cases hg : s.find? (fun p => p.1 == k) with
    | none => rfl
    | some x => rw [hg] at h; simp at h
  intro p hp
  have hnp := List.find?_eq_none.mp hf p hp
  cases hz : (p.1 == k) with
  | true => exact absurd hz hnp
  | false => rfl

theorem sweepFold_unexpired {α : Type} (expOf : α → Int) (now : Int)
    (ks : List String) (s : List (String × α)) (h : ∀ p ∈ s, now < expOf p.2) :
    ks.foldl (fun acc key => cleanupExpiredKey expOf key now acc) s = s := by
  induction ks with
  | nil => rfl
  | cons k ks ih =>
    rw [List.foldl_cons]
    have hstep : cleanupExpiredKey expOf k now s = s := by
      cases hg : mapGet s k with
      | none => exact cleanupExpiredKey_get_none expOf k now s hg
      | some e =>
        exact cleanupExpiredKey_not_expired expOf k now s e hg (h _ (mapGet_mem s k e hg))
    rw [hstep]
    exact ih

theorem sweepStore_unexpired {α : Type} (expOf : α → Int) (now : Int)
    (s : List (String × α)) (h : ∀ p ∈ s, now < expOf p.2) :
    sweepStore expOf now s = s :=
  sweepFold_unexpired expOf now (s.map Prod.fst) s h

theorem nodupKeys_filter {α : Type} (s : List (String × α)) (f : String × α → Bool)
    (h : (s.map Prod.fst).Nodup) : ((s.filter f).map Prod.fst).Nodup :=
  h.sublist (List.Sublist.map Prod.fst (List.filter_sublist s))

theorem nodup_key_eq {α : Type} (s : List (String × α))
    (hnd : (s.map Prod.fst).Nodup) {p q : String × α}
    (hp : p ∈ s) (hq : q ∈ s) (hfst : p.1 = q.1) : p = q :=
  List.inj_on_of_nodup_map hnd hp hq hfst

theorem cleanupExpiredKey_eq_filter {α : Type} (expOf : α → Int) (k : String)
    (now : Int) (s : List (String × α)) (hnd : (s.map Prod.fst).Nodup) :
    cleanupExpiredKey expOf k now s
      = s.filter (fun p => !((p.1 == k) && decide (expOf p.2 ≤ now))) := by
  cases hg : mapGet s k with
  | none =>
    rw [cleanupExpiredKey_get_none expOf k now s hg]
    symm
    apply List.filter_eq_self.mpr
    intro p hp
    simp [mapGet_none_key s k hg p hp]
  | some e =>
    have hmem : (k, e) ∈ s := mapGet_mem s k e hg
    by_cases hle : expOf e ≤ now
    · rw [cleanupExpiredKey_expired expOf k now s e hg hle]
      unfold mapDelete
      apply List.filter_congr
      intro p hp
      by_cases hpk : (p.1 == k) = true
      · have hpe : p = (k, e) := nodup_key_eq s hnd hp hmem (eq_of_beq hpk)
        rw [hpe]
        simp [hle]
      · have hpk2 : (p.1 == k) = false := by
          cases hz : (p.1 == k) with
          | true => exact absurd hz hpk
          | false => rfl
        simp [hpk2]
    · rw [cleanupExpiredKey_not_expired expOf k now s e hg (not_le.mp hle)]
      symm
      apply List.filter_eq_self.mpr
      intro p hp
      by_cases hpk : (p.1 == k) = true
      · have hpe : p = (k, e) := nodup_key_eq s hnd hp hmem (eq_of_beq hpk)
        rw [hpe]
        simp [hle]
      · have hpk2 : (p.1 == k) = false := by
          cases hz : (p.1 == k) with
          | true => exact absurd hz hpk
          | false => rfl
        simp [hpk2]

theorem sweepFold_eq_filter {α : Type} (expOf : α → Int) (now : Int) :
    ∀ (ks : List String) (s : List (String × α)), (s.map Prod.fst).Nodup →
    ks.foldl (fun acc key => cleanupExpiredKey expOf key now acc) s
      = s.filter (fun p => !(decide (p.1 ∈ ks) && decide (expOf p.2 ≤ now))) := by
  intro ks
  induction ks with
  | nil =>
    intro s _
    rw [List.foldl_nil]
    symm
    apply List.filter_eq_self.mpr
    intro p hp
    simp
  | cons k ks ih =>
    intro s hnd
    rw [List.foldl_cons, cleanupExpiredKey_eq_filter expOf k now s hnd,
      ih _ (nodupKeys_filter s _ hnd), List.filter_filter]
    apply List.filter_congr
    intro p hp
    by_cases h1 : p.1 = k <;> by_cases h2 : p.1 ∈ ks <;>
      by_cases h3 : expOf p.2 ≤ now <;>
      simp [h1, h2, h3, List.mem_cons]

theorem sweepStore_eq_filter {α : Type} (expOf : α → Int) (now : Int)
    (s : List (String × α)) (hnd : (s.map Prod.fst).Nodup) :
    sweepStore expOf now s = s.filter (fun p => decide (now < expOf p.2)) := by
  unfold sweepStore
  rw [sweepFold_eq_filter expOf now (s.map Prod.fst) s hnd]
  apply List.filter_congr
  intro p hp
  have hmem : p.1 ∈ s.map Prod.fst := List.mem_map_of_mem Prod.fst hp
  by_cases h3 : expOf p.2 ≤ now
  · have hnlt : ¬ now < expOf p.2 := not_lt.mpr h3
    simp [hmem, h3, hnlt]
  · have hlt : now < expOf p.2 := not_le.mp h3
    simp [hmem, h3, hlt]

theorem sweepStore_idem {α : Type} (expOf : α → Int) (now : Int)
    (s : List (String × α)) (hnd : (s.map Prod.fst).Nodup) :
    sweepStore expOf now (sweepStore expOf now s) = sweepStore expOf now s := by
  rw [sweepStore_eq_filter expOf now s hnd,
    sweepStore_eq_filter expOf now _ (nodupKeys_filter s _ hnd),
    List.filter_filter]
  apply List.filter_congr
  intro p hp
  simp

/-! Lemmas about the capture-once guard of the idempotency middleware. -/

theorem recordEmissions_stored {Body : Type} (key : String) (now ttlMs : Int)
    (es : List (Emission Body)) (c : IdemStore Body) :
    recordEmissions key now ttlMs es true c = c := by
  induction es with
  | nil => rfl
  | cons e rest ih => simpa [recordEmissions] using ih

theorem recordEmissions_first {Body : Type} (key : String) (now ttlMs : Int)
    (e : Emission Body) (rest : List (Emission Body)) (c : IdemStore Body) :
    recordEmissions key now ttlMs (e :: rest) false c
      = captureAndStore key now ttlMs e c := by
  simp [recordEmissions, recordEmissions_stored]

/-! Lemmas about one rateLimitCheck step. -/

theorem rateLimitCheck_fresh (windowMs max : Int) (msg key : String) (now : Int)
    (s : RLStore) (h : mapGet s key = none) :
    rateLimitCheck windowMs max msg key now s
      = (RLDecision.allow, mapSet s key ⟨1, now + windowMs⟩) := by
  simp only [rateLimitCheck, cleanupIfExpired]
  rw [cleanupExpiredKey_get_none Entry.expiresAt key now s h, h]

theorem rateLimitCheck_deny_eq (windowMs max : Int) (msg key : String) (now : Int)
    (s : RLStore) (e : Entry) (hget : mapGet s key = some e)
    (hunexp : now < e.expiresAt) (hmax : max ≤ e.count) :
    rateLimitCheck windowMs max msg key now s
      = (RLDecision.deny ⟨ErrorCode.FORBIDDEN, msg, 429, none⟩, s) := by
  simp only [rateLimitCheck, cleanupIfExpired]
  rw [cleanupExpiredKey_not_expired Entry.expiresAt key now s e hget hunexp, hget]
  show (if max ≤ e.count then
      (RLDecision.deny ⟨ErrorCode.FORBIDDEN, msg, 429, none⟩, s)
    else (RLDecision.allow, mapSet s key ⟨e.count + 1, e.expiresAt⟩))
    = (RLDecision.deny ⟨ErrorCode.FORBIDDEN, msg, 429, none⟩, s)
  exact if_pos hmax

theorem rateLimitCheck_incr (windowMs max : Int) (msg key : String) (now : Int)
    (s : RLStore) (e : Entry) (hget : mapGet s key = some e)
    (hunexp : now < e.expiresAt) (hlt : e.count < max) :
    rateLimitCheck windowMs max msg key now s
      = (RLDecision.allow, mapSet s key ⟨e.count + 1, e.expiresAt⟩) := by
  simp only [rateLimitCheck, cleanupIfExpired]
  rw [cleanupExpiredKey_not_expired Entry.expiresAt key now s e hget hunexp, hget]
  show (if max ≤ e.count then
      (RLDecision.deny ⟨ErrorCode.FORBIDDEN, msg, 429, none⟩, s)
    else (RLDecision.allow, mapSet s key ⟨e.count + 1, e.expiresAt⟩))
    = (RLDecision.allow, mapSet s key ⟨e.count + 1, e.expiresAt⟩)
  exact if_neg (not_le.mpr hlt)

theorem rateLimitCheck_window_reset (windowMs max : Int) (msg key : String) (now : Int)
    (s : RLStore) (e : Entry) (hget : mapGet s key = some e)
    (hexp : e.expiresAt ≤ now) :
    rateLimitCheck windowMs max msg key now s
      = (RLDecision.allow, mapSet (mapDelete s key) key ⟨1, now + windowMs⟩) := by
  simp only [rateLimitCheck, cleanupIfExpired]
  rw [cleanupExpiredKey_expired Entry.expiresAt key now s e hget hexp,
    mapGet_mapDelete_self]

theorem rlStateAfter_invariant (windowMs max : Int) (msg key : String)
    (t : Nat → Int) (s0 : RLStore) (h0 : mapGet s0 key = none) :
    ∀ i : Nat, 1 ≤ i →
    (∀ j : Nat, 1 ≤ j → j < i → (j : Int) < max) →
    (∀ j : Nat, j < i → t j < t 0 + windowMs) →
    mapGet (rlStateAfter windowMs max msg key t s0 i) key
      = some ⟨(i : Int), t 0 + windowMs⟩ := by
  intro i
  induction i with
  | zero => intro h1; exact absurd h1 (by omega)
  | succ i ih =>
    intro _ hcnt hwin
    by_cases hi : 1 ≤ i
    · have hget := ih hi (fun j hj1 hj2 => hcnt j hj1 (by omega))
        (fun j hj => hwin j (by omega))
      have hstep := rateLimitCheck_incr windowMs max msg key (t i)
        (rlStateAfter windowMs max msg key t s0 i) ⟨(i : Int), t 0 + windowMs⟩
        hget (hwin i (by omega)) (hcnt i hi (by omega))
      show mapGet (rateLimitCheck windowMs max msg key (t i)
        (rlStateAfter windowMs max msg key t s0 i)).2 key = _
      rw [hstep]
      have : ((i : Int) + 1) = ((i + 1 : Nat) : Int) := by push_cast; ring
      rw [mapGet_mapSet_self]
      rw [this]
    · have hi0 : i = 0 := by omega
      subst hi0
      have hstep := rateLimitCheck_fresh windowMs max msg key (t 0) s0 h0
      show mapGet (rateLimitCheck windowMs max msg key (t 0)
        (rlStateAfter windowMs max msg key t s0 0)).2 key = _
      show mapGet (rateLimitCheck windowMs max msg key (t 0) s0).2 key = _
      rw [hstep]
      exact mapGet_mapSet_self s0 key ⟨1, t 0 + windowMs⟩

/-! Claim theorems for the rate limiter, the sweeps and the cleanup entry
point. -/

/-- Claim C1 counterexample: the claim states that with max = 0 the very
first check for any key is denied; on the code, with max = 0 and a fresh
key, the very first check is allowed (the absent-entry branch stores a
count-1 entry and calls next() with no error), so the claim is false at
this concrete input. The repository test suite asserts exactly this
behaviour for max = 0. -/
theorem C1_counterexample :
    (rateLimitCheck 60000 0 "Too many requests" "k" 0 []).1 = RLDecision.allow := by
  decide

/-- Claim C1 amended: for every configuration with max <= 0, the first
check for a fresh key is allowed (a count-1 entry is created), and every
following check within the window is denied with the 429 FORBIDDEN error:
max <= 0 admits exactly one request per window, not zero. -/
theorem C1_max_nonpositive (windowMs max : Int) (hmax : max ≤ 0) (msg key : String)
    (now now2 : Int) (s : RLStore) (h0 : mapGet s key = none)
    (hwin : now2 < now + windowMs) :
    (rateLimitCheck windowMs max msg key now s).1 = RLDecision.allow
    ∧ (rateLimitCheck windowMs max msg key now2
        (rateLimitCheck windowMs max msg key now s).2).1
        = RLDecision.deny ⟨ErrorCode.FORBIDDEN, msg, 429, none⟩ := by
  have h1 := rateLimitCheck_fresh windowMs max msg key now s h0
  constructor
  · rw [h1]
  · rw [h1]
    have hget : mapGet (mapSet s key ⟨1, now + windowMs⟩) key
        = some ⟨1, now + windowMs⟩ := mapGet_mapSet_self s key ⟨1, now + windowMs⟩
    have h2 := rateLimitCheck_deny_eq windowMs max msg key now2
      (mapSet s key ⟨1, now + windowMs⟩) ⟨1, now + windowMs⟩ hget hwin
      (le_trans hmax zero_le_one)
    rw [h2]

/-- Claim C1 amended witness: max = 0, fresh store, first check at time 0
allowed, second check at time 5 (window 60000) denied. -/
theorem C1_max_nonpositive_witness :
    (rateLimitCheck 60000 0 "m" "k" 0 []).1 = RLDecision.allow
    ∧ (rateLimitCheck 60000 0 "m" "k" 5
        (rateLimitCheck 60000 0 "m" "k" 0 []).2).1
        = RLDecision.deny ⟨ErrorCode.FORBIDDEN, "m", 429, none⟩ :=
  C1_max_nonpositive 60000 0 (by decide) "m" "k" 0 5 [] rfl (by decide)

/-- Claim C4: with max = N >= 1 and windowMs = W > 0, starting from a store
with no entry for the key and performing checks at times inside the window
that opens at the first check, exactly the first N checks are allowed, the
check after them is denied with AppError(FORBIDDEN, message, 429), and a
check made at or after t 0 + W (once W has elapsed since the window
started) is allowed again. -/
theorem C4_fixed_window (N : Nat) (hN : 1 ≤ N) (windowMs : Int) (_hW : 0 < windowMs)
    (msg key : String) (t : Nat → Int) (s0 : RLStore)
    (h0 : mapGet s0 key = none)
    (ht : ∀ i : Nat, i ≤ N → t 0 ≤ t i ∧ t i < t 0 + windowMs) :
    (∀ i : Nat, i < N → rlDecisionAt windowMs (N : Int) msg key t s0 i = RLDecision.allow)
    ∧ rlDecisionAt windowMs (N : Int) msg key t s0 N
        = RLDecision.deny ⟨ErrorCode.FORBIDDEN, msg, 429, none⟩
    ∧ (∀ t2 : Int, t 0 + windowMs ≤ t2 →
        (rateLimitCheck windowMs (N : Int) msg key t2
          (rlStateAfter windowMs (N : Int) msg key t s0 (N + 1))).1
          = RLDecision.allow) := by
  have hmaxcast : ∀ j : Nat, j < N → (j : Int) < (N : Int) := by
    intro j hj
    exact_mod_cast hj
  have hinv : ∀ i : Nat, 1 ≤ i → i ≤ N →
      mapGet (rlStateAfter windowMs (N : Int) msg key t s0 i) key
        = some ⟨(i : Int), t 0 + windowMs⟩ := by
    intro i h1 h2
    exact rlStateAfter_invariant windowMs (N : Int) msg key t s0 h0 i h1
      (fun j _ hj2 => hmaxcast j (lt_of_lt_of_le hj2 h2))
      (fun j hj => (ht j (le_trans (le_of_lt hj) h2)).2)
  refine ⟨?_, ?_, ?_⟩
  · intro i hiN
    by_cases hi : 1 ≤ i
    · have hget := hinv i hi (le_of_lt hiN)
      have hstep := rateLimitCheck_incr windowMs (N : Int) msg key (t i)
        (rlStateAfter windowMs (N : Int) msg key t s0 i)
        ⟨(i : Int), t 0 + windowMs⟩ hget
        ((ht i (le_of_lt hiN)).2) (hmaxcast i hiN)
      unfold rlDecisionAt
      rw [hstep]
    · have hzero : i = 0 := by omega
      subst hzero
      unfold rlDecisionAt
      show (rateLimitCheck windowMs (N : Int) msg key (t 0) s0).1 = RLDecision.allow
      rw [rateLimitCheck_fresh windowMs (N : Int) msg key (t 0) s0 h0]
  · have hget := hinv N hN (le_refl N)
    have hstep := rateLimitCheck_deny_eq windowMs (N : Int) msg key (t N)
      (rlStateAfter windowMs (N : Int) msg key t s0 N)
      ⟨(N : Int), t 0 + windowMs⟩ hget
      ((ht N (le_refl N)).2) (le_refl (N : Int))
    unfold rlDecisionAt
    rw [hstep]
  · intro t2 ht2
    have hget := hinv N hN (le_refl N)
    have hstepN := rateLimitCheck_deny_eq windowMs (N : Int) msg key (t N)
      (rlStateAfter windowMs (N : Int) msg key t s0 N)
      ⟨(N : Int), t 0 + windowMs⟩ hget
      ((ht N (le_refl N)).2) (le_refl (N : Int))
    have hsa : rlStateAfter windowMs (N : Int) msg key t s0 (N + 1)
        = rlStateAfter windowMs (N : Int) msg key t s0 N := by
      show (rateLimitCheck windowMs (N : Int) msg key (t N)
        (rlStateAfter windowMs (N : Int) msg key t s0 N)).2 = _
      rw [hstepN]
    rw [hsa, rateLimitCheck_window_reset windowMs (N : Int) msg key t2
      (rlStateAfter windowMs (N : Int) msg key t s0 N)
      ⟨(N : Int), t 0 + windowMs⟩ hget ht2]

/-- Claim C4 witness: N = 1, W = 10, all checks at time 0; check 0 allowed,
check 1 denied, and a check at time 10 on the resulting store allowed. -/
theorem C4_fixed_window_witness :
    rlDecisionAt 10 ((1 : Nat) : Int) "m" "k" (fun _ => 0) [] 0 = RLDecision.allow
    ∧ rlDecisionAt 10 ((1 : Nat) : Int) "m" "k" (fun _ => 0) [] 1
        = RLDecision.deny ⟨ErrorCode.FORBIDDEN, "m", 429, none⟩
    ∧ (rateLimitCheck 10 ((1 : Nat) : Int) "m" "k" 10
        (rlStateAfter 10 ((1 : Nat) : Int) "m" "k" (fun _ => 0) [] 2)).1
        = RLDecision.allow := by
  have h := C4_fixed_window 1 (by decide) 10 (by decide) "m" "k" (fun _ => 0) [] rfl
    (fun i _ => ⟨le_refl (0 : Int), show (0 : Int) < 0 + 10 by decide⟩)
  exact ⟨h.1 0 (by decide), h.2.1, h.2.2 10 (by decide)⟩

/-- Claim C8: when the caller-supplied keyGenerator throws, the rate
limiter middleware propagates the exception unmodified and the counter
store is left exactly as it was. -/
theorem C8_keygen_error_propagates {Req E : Type} (windowMs max : Int) (msg : String)
    (keyGenerator : Req → Except E String) (req : Req) (now : Int) (s : RLStore)
    (err : E) (h : keyGenerator req = Except.error err) :
    rateLimitHandle windowMs max msg keyGenerator req now s = (Except.error err, s) := by
  unfold rateLimitHandle
  rw [h]

/-- Claim C8 witness: a key generator that always throws 7 propagates 7 and
leaves a nonempty store untouched. -/
theorem C8_keygen_error_propagates_witness :
    rateLimitHandle 5 2 "m" (fun _ : Unit => (Except.error 7 : Except Nat String)) () 0
      [("a", ⟨1, 9⟩)] = (Except.error 7, [("a", ⟨1, 9⟩)]) :=
  C8_keygen_error_propagates 5 2 "m" (fun _ : Unit => (Except.error 7 : Except Nat String))
    () 0 [("a", ⟨1, 9⟩)] 7 rfl

/-- Claim C10: a denied check (unexpired entry for the key with
count >= max) returns the 429 FORBIDDEN error and the whole store exactly
unchanged: no count increment, no expiry extension, no other key
touched. -/
theorem C10_denied_leaves_store (windowMs max : Int) (msg key : String) (now : Int)
    (s : RLStore) (e : Entry) (hget : mapGet s key = some e)
    (hunexp : now < e.expiresAt) (hmax : max ≤ e.count) :
    rateLimitCheck windowMs max msg key now s
      = (RLDecision.deny ⟨ErrorCode.FORBIDDEN, msg, 429, none⟩, s) :=
  rateLimitCheck_deny_eq windowMs max msg key now s e hget hunexp hmax

/-- Claim C10 witness: store with the saturated key and one other key is
returned exactly unchanged by a denied check. -/
theorem C10_denied_leaves_store_witness :
    rateLimitCheck 100 3 "m" "k" 5 [("k", ⟨3, 10⟩), ("z", ⟨1, 99⟩)]
      = (RLDecision.deny ⟨ErrorCode.FORBIDDEN, "m", 429, none⟩,
          [("k", ⟨3, 10⟩), ("z", ⟨1, 99⟩)]) :=
  C10_denied_leaves_store 100 3 "m" "k" 5 [("k", ⟨3, 10⟩), ("z", ⟨1, 99⟩)]
    ⟨3, 10⟩ rfl (by decide) (by decide)

/-- Claim C9: on stores with unique keys (the JS Map invariant), each sweep
deletes exactly the entries whose expiresAt is at or before now, keeping
every other entry in order, and each sweep is idempotent. -/
theorem C9_sweep_exact_and_idempotent {Body : Type} (now : Int) (s1 : RLStore)
    (s2 : IdemStore Body) (h1 : (s1.map Prod.fst).Nodup)
    (h2 : (s2.map Prod.fst).Nodup) :
    _cleanupRateLimitCache now s1 = s1.filter (fun p => decide (now < p.2.expiresAt))
    ∧ _cleanupRateLimitCache now (_cleanupRateLimitCache now s1)
        = _cleanupRateLimitCache now s1
    ∧ _cleanupIdempotencyCache now s2 = s2.filter (fun p => decide (now < p.2.expiresAt))
    ∧ _cleanupIdempotencyCache now (_cleanupIdempotencyCache now s2)
        = _cleanupIdempotencyCache now s2 :=
  ⟨sweepStore_eq_filter Entry.expiresAt now s1 h1,
    sweepStore_idem Entry.expiresAt now s1 h1,
    sweepStore_eq_filter CachedResponse.expiresAt now s2 h2,
    sweepStore_idem CachedResponse.expiresAt now s2 h2⟩

/-- Claim C9 witness: concrete sweeps at now = 10 over a rate-limit store
and an idempotency store with unique keys. -/
theorem C9_sweep_exact_and_idempotent_witness :
    _cleanupRateLimitCache 10 [("a", ⟨1, 5⟩), ("b", ⟨2, 11⟩)]
      = ([("a", ⟨1, 5⟩), ("b", ⟨2, 11⟩)] : RLStore).filter
          (fun p => decide ((10 : Int) < p.2.expiresAt))
    ∧ _cleanupRateLimitCache 10 (_cleanupRateLimitCache 10 [("a", ⟨1, 5⟩), ("b", ⟨2, 11⟩)])
        = _cleanupRateLimitCache 10 [("a", ⟨1, 5⟩), ("b", ⟨2, 11⟩)]
    ∧ _cleanupIdempotencyCache 10 [("x", ⟨200, [], (7 : Nat), 3⟩)]
        = ([("x", ⟨200, [], (7 : Nat), 3⟩)] : IdemStore Nat).filter
            (fun p => decide ((10 : Int) < p.2.expiresAt))
    ∧ _cleanupIdempotencyCache 10
          (_cleanupIdempotencyCache 10 [("x", ⟨200, [], (7 : Nat), 3⟩)])
        = _cleanupIdempotencyCache 10 [("x", ⟨200, [], (7 : Nat), 3⟩)] :=
  C9_sweep_exact_and_idempotent 10 [("a", ⟨1, 5⟩), ("b", ⟨2, 11⟩)]
    [("x", ⟨200, [], (7 : Nat), 3⟩)] (by decide) (by decide)

/-- Claim C7: cleanupExpiredEntries reads its timestamp from the monotonic
process clock (truncated milliseconds of process.hrtime.bigint()) while
the cache entries carry epoch-based expiries; whenever every entry expiry
exceeds that monotonic reading, the call evicts nothing from either cache,
regardless of how far in the past the epoch expiries lie. -/
theorem C7_monotonic_clock_sweep {Body : Type} (hrtimeNs : Nat) (rl : RLStore)
    (idem : IdemStore Body)
    (h1 : ∀ p ∈ rl, Int.ofNat (hrtimeNs / 1000000) < p.2.expiresAt)
    (h2 : ∀ p ∈ idem, Int.ofNat (hrtimeNs / 1000000) < p.2.expiresAt) :
    cleanupExpiredEntries hrtimeNs rl idem = (rl, idem) := by
  simp only [cleanupExpiredEntries, _cleanupRateLimitCache, _cleanupIdempotencyCache]
  rw [sweepStore_unexpired Entry.expiresAt _ rl h1,
    sweepStore_unexpired CachedResponse.expiresAt _ idem h2]

/-- Claim C7 witness: two hours of process uptime (monotonic reading
7200000 ms) against entries whose epoch expiries (1.6e12 ms) lie far in
the epoch past relative to any realistic Date.now reading; nothing is
evicted. -/
theorem C7_monotonic_clock_sweep_witness :
    cleanupExpiredEntries 7200000000000 [("a", ⟨5, 1600000000000⟩)]
      [("x", ⟨200, [], (0 : Nat), 1600000000000⟩)]
      = ([("a", ⟨5, 1600000000000⟩)], [("x", ⟨200, [], (0 : Nat), 1600000000000⟩)]) :=
  C7_monotonic_clock_sweep 7200000000000 [("a", ⟨5, 1600000000000⟩)]
    [("x", ⟨200, [], (0 : Nat), 1600000000000⟩)] (by decide) (by decide)

/-! Lemmas and claim theorem for the idempotency middleware. -/

theorem idempotencyStep_fresh {Body : Type} (ttlMs : Int) (raw : String) (now : Int)
    (handler : List (Emission Body)) (c : IdemStore Body)
    (hne : ¬ strTrim raw = "") (h0 : mapGet c (strTrim raw) = none) :
    idempotencyStep ttlMs "POST" (some raw) now handler c
      = ⟨true, IdemResponse.passthrough handler,
          recordEmissions (strTrim raw) now ttlMs handler false c⟩ := by
  simp only [idempotencyStep, cleanIfExpired]
  rw [if_neg (fun h => h rfl), if_neg hne,
    cleanupExpiredKey_get_none CachedResponse.expiresAt (strTrim raw) now c h0, h0]

theorem idempotencyStep_replay {Body : Type} (ttlMs : Int) (raw : String) (now : Int)
    (handler : List (Emission Body)) (c : IdemStore Body) (rec : CachedResponse Body)
    (hne : ¬ strTrim raw = "") (hget : mapGet c (strTrim raw) = some rec)
    (hunexp : now < rec.expiresAt) :
    idempotencyStep ttlMs "POST" (some raw) now handler c
      = ⟨false, IdemResponse.replayed rec.status rec.headers rec.body, c⟩ := by
  simp only [idempotencyStep, cleanIfExpired]
  rw [if_neg (fun h => h rfl), if_neg hne,
    cleanupExpiredKey_not_expired CachedResponse.expiresAt (strTrim raw) now c rec hget hunexp,
    hget]

/-- Claim C2: for POST requests with non-empty whitespace-trimmed
Idempotency-Key, a first request with no record for the trimmed key runs
the handler and stores exactly the first emission (later emissions of the
same request do not re-capture), and a duplicate request whose key trims
to the same string, arriving while the record is unexpired, does not run
the handler, receives exactly the recorded status, headers and body, and
leaves the cache exactly unchanged. -/
theorem C2_idempotent_replay {Body : Type} (ttlMs : Int) (key1 key2 : String)
    (t1 t2 : Int) (c0 : IdemStore Body) (e : Emission Body)
    (rest handler2 : List (Emission Body))
    (hkeys : strTrim key2 = strTrim key1)
    (hne : ¬ strTrim key1 = "")
    (h0 : mapGet c0 (strTrim key1) = none)
    (httl : t2 < t1 + ttlMs) :
    (idempotencyStep ttlMs "POST" (some key1) t1 (e :: rest) c0).handlerRan = true
    ∧ mapGet (idempotencyStep ttlMs "POST" (some key1) t1 (e :: rest) c0).cache
        (strTrim key1)
        = some ⟨e.status, captureHeaders e.contentType, e.body, t1 + ttlMs⟩
    ∧ (idempotencyStep ttlMs "POST" (some key2) t2 handler2
        (idempotencyStep ttlMs "POST" (some key1) t1 (e :: rest) c0).cache).handlerRan
        = false
    ∧ (idempotencyStep ttlMs "POST" (some key2) t2 handler2
        (idempotencyStep ttlMs "POST" (some key1) t1 (e :: rest) c0).cache).response
        = IdemResponse.replayed e.status (captureHeaders e.contentType) e.body
    ∧ (idempotencyStep ttlMs "POST" (some key2) t2 handler2
        (idempotencyStep ttlMs "POST" (some key1) t1 (e :: rest) c0).cache).cache
        = (idempotencyStep ttlMs "POST" (some key1) t1 (e :: rest) c0).cache := by
  have h1 := idempotencyStep_fresh ttlMs key1 t1 (e :: rest) c0 hne h0
  have hrec := recordEmissions_first (strTrim key1) t1 ttlMs e rest c0
  have hget2 : mapGet (idempotencyStep ttlMs "POST" (some key1) t1 (e :: rest) c0).cache
      (strTrim key1)
      = some ⟨e.status, captureHeaders e.contentType, e.body, t1 + ttlMs⟩ := by
    rw [h1]
    show mapGet (recordEmissions (strTrim key1) t1 ttlMs (e :: rest) false c0) _ = _
    rw [hrec]
    exact mapGet_mapSet_self c0 (strTrim key1)
      ⟨e.status, captureHeaders e.contentType, e.body, t1 + ttlMs⟩
  have hne2 : ¬ strTrim key2 = "" := by rw [hkeys]; exact hne
  have hget2b : mapGet (idempotencyStep ttlMs "POST" (some key1) t1 (e :: rest) c0).cache
      (strTrim key2)
      = some ⟨e.status, captureHeaders e.contentType, e.body, t1 + ttlMs⟩ := by
    rw [hkeys]
    exact hget2
  have h2 := idempotencyStep_replay ttlMs key2 t2 handler2
    (idempotencyStep ttlMs "POST" (some key1) t1 (e :: rest) c0).cache
    ⟨e.status, captureHeaders e.contentType, e.body, t1 + ttlMs⟩ hne2 hget2b httl
  refine ⟨by rw [h1], hget2, by rw [h2], by rw [h2], by rw [h2]⟩

/-- Claim C2 witness: keys "abc" and "  abc  " (equal after trimming),
first POST stores the first of two emissions, duplicate POST 500 ms later
(ttl 1000 ms) is replayed without running the handler and without touching
the cache. -/
theorem C2_idempotent_replay_witness :
    (idempotencyStep 1000 "POST" (some "abc") 0
        ([⟨200, some "application/json", "B"⟩, ⟨500, none, "X"⟩] : List (Emission String))
        []).handlerRan = true
    ∧ mapGet (idempotencyStep 1000 "POST" (some "abc") 0
        ([⟨200, some "application/json", "B"⟩, ⟨500, none, "X"⟩] : List (Emission String))
        []).cache (strTrim "abc")
        = some ⟨200, captureHeaders (some "application/json"), "B", 0 + 1000⟩
    ∧ (idempotencyStep 1000 "POST" (some "  abc  ") 500
        ([⟨201, none, "C"⟩] : List (Emission String))
        (idempotencyStep 1000 "POST" (some "abc") 0
          ([⟨200, some "application/json", "B"⟩, ⟨500, none, "X"⟩] : List (Emission String))
          []).cache).handlerRan = false
    ∧ (idempotencyStep 1000 "POST" (some "  abc  ") 500
        ([⟨201, none, "C"⟩] : List (Emission String))
        (idempotencyStep 1000 "POST" (some "abc") 0
          ([⟨200, some "application/json", "B"⟩, ⟨500, none, "X"⟩] : List (Emission String))
          []).cache).response
        = IdemResponse.replayed 200 (captureHeaders (some "application/json")) "B"
    ∧ (idempotencyStep 1000 "POST" (some "  abc  ") 500
        ([⟨201, none, "C"⟩] : List (Emission String))
        (idempotencyStep 1000 "POST" (some "abc") 0
          ([⟨200, some "application/json", "B"⟩, ⟨500, none, "X"⟩] : List (Emission String))
          []).cache).cache
        = (idempotencyStep 1000 "POST" (some "abc") 0
          ([⟨200, some "application/json", "B"⟩, ⟨500, none, "X"⟩] : List (Emission String))
          []).cache :=
  C2_idempotent_replay 1000 "abc" "  abc  " 0 500 [] ⟨200, some "application/json", "B"⟩
    [⟨500, none, "X"⟩] [⟨201, none, "C"⟩] (by decide) (by decide) rfl (by decide)

/-! Lemmas about one attempt of the HTTP client. -/

theorem attemptOutcome_response_ok {Body : Type} (shouldRetry : Bool) (maxAttempts : Nat)
    (retryDelay : Int) (url : String) (attempt : Nat) (status : Int) (statusText : String)
    (data : Body) (headers : List (String × String)) (hok : 200 ≤ status ∧ status < 300) :
    attemptOutcome shouldRetry maxAttempts retryDelay url attempt
      (FetchOutcome.response status statusText data headers)
      = StepResult.done (Except.ok ⟨data, status, headers⟩) := by
  simp only [attemptOutcome]
  rw [if_pos hok]

theorem attemptOutcome_response_retry {Body : Type} (shouldRetry : Bool) (maxAttempts : Nat)
    (retryDelay : Int) (url : String) (attempt : Nat) (status : Int) (statusText : String)
    (data : Body) (headers : List (String × String))
    (hnotok : ¬(200 ≤ status ∧ status < 300))
    (hcond : shouldRetry = true ∧ attempt < maxAttempts ∧
      isRetryableError none none (some status) = true) :
    attemptOutcome shouldRetry maxAttempts retryDelay url attempt
      (FetchOutcome.response status statusText data headers)
      = StepResult.retryAfter (retryDelay * (attempt : Int))
          (some ("HTTP " ++ toString status ++ ": " ++ statusText)) := by
  simp only [attemptOutcome]
  rw [if_neg hnotok, if_pos hcond]

theorem attemptOutcome_response_5xx {Body : Type} (shouldRetry : Bool) (maxAttempts : Nat)
    (retryDelay : Int) (url : String) (attempt : Nat) (status : Int) (statusText : String)
    (data : Body) (headers : List (String × String))
    (hnotok : ¬(200 ≤ status ∧ status < 300))
    (hnoretry : ¬(shouldRetry = true ∧ attempt < maxAttempts ∧
      isRetryableError none none (some status) = true))
    (h500 : 500 ≤ status) :
    attemptOutcome shouldRetry maxAttempts retryDelay url attempt
      (FetchOutcome.response status statusText data headers)
      = StepResult.done (Except.error (ClientError.appError ErrorCode.INTERNAL_ERROR
          ("Dependency service failed: " ++ statusText) 503
          (ErrDetails.urlStatus url status))) := by
  simp only [attemptOutcome]
  rw [if_neg hnotok, if_neg hnoretry, if_pos h500]

theorem attemptOutcome_response_client {Body : Type} (shouldRetry : Bool) (maxAttempts : Nat)
    (retryDelay : Int) (url : String) (attempt : Nat) (status : Int) (statusText : String)
    (data : Body) (headers : List (String × String))
    (hnotok : ¬(200 ≤ status ∧ status < 300))
    (hnoretry : ¬(shouldRetry = true ∧ attempt < maxAttempts ∧
      isRetryableError none none (some status) = true))
    (hn500 : ¬ 500 ≤ status) :
    attemptOutcome shouldRetry maxAttempts retryDelay url attempt
      (FetchOutcome.response status statusText data headers)
      = StepResult.done (Except.error (ClientError.httpError status statusText data)) := by
  simp only [attemptOutcome]
  rw [if_neg hnotok, if_neg hnoretry, if_neg hn500]

theorem attemptOutcome_exception_retry {Body : Type} (shouldRetry : Bool) (maxAttempts : Nat)
    (retryDelay : Int) (url : String) (attempt : Nat) (e : JsError)
    (hcond : shouldRetry = true ∧ attempt < maxAttempts ∧
      isRetryableError e.code e.name e.status = true) :
    attemptOutcome shouldRetry maxAttempts retryDelay url attempt
      ((FetchOutcome.exception e : FetchOutcome Body))
      = StepResult.retryAfter (retryDelay * (attempt : Int)) e.message := by
  simp only [attemptOutcome]
  rw [if_pos hcond]

theorem attemptOutcome_exception_classified {Body : Type} (shouldRetry : Bool)
    (maxAttempts : Nat) (retryDelay : Int) (url : String) (attempt : Nat) (e : JsError)
    (hnoretry : ¬(shouldRetry = true ∧ attempt < maxAttempts ∧
      isRetryableError e.code e.name e.status = true))
    (hclass : e.code = some "ECONNREFUSED" ∨ e.code = some "ENOTFOUND" ∨
      e.name = some "AbortError") :
    attemptOutcome shouldRetry maxAttempts retryDelay url attempt
      ((FetchOutcome.exception e : FetchOutcome Body))
      = StepResult.done (Except.error (ClientError.appError ErrorCode.INTERNAL_ERROR
          "Service unavailable or timed out" 503
          (ErrDetails.urlOriginalError url (e.message.getD "Unknown error")))) := by
  simp only [attemptOutcome]
  rw [if_neg hnoretry, if_pos hclass]

theorem attemptOutcome_exception_unmodified {Body : Type} (shouldRetry : Bool)
    (maxAttempts : Nat) (retryDelay : Int) (url : String) (attempt : Nat) (e : JsError)
    (hnoretry : ¬(shouldRetry = true ∧ attempt < maxAttempts ∧
      isRetryableError e.code e.name e.status = true))
    (hnclass : ¬(e.code = some "ECONNREFUSED" ∨ e.code = some "ENOTFOUND" ∨
      e.name = some "AbortError")) :
    attemptOutcome shouldRetry maxAttempts retryDelay url attempt
      ((FetchOutcome.exception e : FetchOutcome Body))
      = StepResult.done (Except.error (ClientError.jsError e)) := by
  simp only [attemptOutcome]
  rw [if_neg hnoretry, if_neg hnclass]

theorem attemptOutcome_no_retry_done {Body : Type} (shouldRetry : Bool) (maxAttempts : Nat)
    (retryDelay : Int) (url : String) (attempt : Nat) (oc : FetchOutcome Body)
    (h : ¬(shouldRetry = true ∧ attempt < maxAttempts)) :
    ∃ r, attemptOutcome shouldRetry maxAttempts retryDelay url attempt oc
      = StepResult.done r := by
  cases oc with
  | response status statusText data headers =>
    by_cases h1 : 200 ≤ status ∧ status < 300
    · exact ⟨_, attemptOutcome_response_ok shouldRetry maxAttempts retryDelay url attempt
        status statusText data headers h1⟩
    · have h2 : ¬(shouldRetry = true ∧ attempt < maxAttempts ∧
          isRetryableError none none (some status) = true) :=
        fun hc => h ⟨hc.1, hc.2.1⟩
      by_cases h3 : 500 ≤ status
      · exact ⟨_, attemptOutcome_response_5xx shouldRetry maxAttempts retryDelay url attempt
          status statusText data headers h1 h2 h3⟩
      · exact ⟨_, attemptOutcome_response_client shouldRetry maxAttempts retryDelay url attempt
          status statusText data headers h1 h2 h3⟩
  | exception e =>
    have h2 : ¬(shouldRetry = true ∧ attempt < maxAttempts ∧
        isRetryableError e.code e.name e.status = true) :=
      fun hc => h ⟨hc.1, hc.2.1⟩
    by_cases h3 : e.code = some "ECONNREFUSED" ∨ e.code = some "ENOTFOUND" ∨
        e.name = some "AbortError"
    · exact ⟨_, attemptOutcome_exception_classified shouldRetry maxAttempts retryDelay url
        attempt e h2 h3⟩
    · exact ⟨_, attemptOutcome_exception_unmodified shouldRetry maxAttempts retryDelay url
        attempt e h2 h3⟩

theorem attemptOutcome_retryAfter_inv {Body : Type} (shouldRetry : Bool) (maxAttempts : Nat)
    (retryDelay : Int) (url : String) (attempt : Nat) (oc : FetchOutcome Body)
    (d : Int) (m2 : Option String)
    (h : attemptOutcome shouldRetry maxAttempts retryDelay url attempt oc
      = StepResult.retryAfter d m2) :
    d = retryDelay * (attempt : Int) ∧ shouldRetry = true ∧ attempt < maxAttempts := by
  cases oc with
  | response status statusText data headers =>
    simp only [attemptOutcome] at h
    by_cases h1 : 200 ≤ status ∧ status < 300
    · rw [if_pos h1] at h
      simp at h
    · rw [if_neg h1] at h
      by_cases h2 : shouldRetry = true ∧ attempt < maxAttempts ∧
          isRetryableError none none (some status) = true
      · rw [if_pos h2] at h
        injection h with hd _
        exact ⟨hd.symm, h2.1, h2.2.1⟩
      · rw [if_neg h2] at h
        by_cases h3 : 500 ≤ status
        · rw [if_pos h3] at h
          simp at h
        · rw [if_neg h3] at h
          simp at h
  | exception e =>
    simp only [attemptOutcome] at h
    by_cases h2 : shouldRetry = true ∧ attempt < maxAttempts ∧
        isRetryableError e.code e.name e.status = true
    · rw [if_pos h2] at h
      injection h with hd _
      exact ⟨hd.symm, h2.1, h2.2.1⟩
    · rw [if_neg h2] at h
      by_cases h3 : e.code = some "ECONNREFUSED" ∨ e.code = some "ENOTFOUND" ∨
          e.name = some "AbortError"
      · rw [if_pos h3] at h
        simp at h
      · rw [if_neg h3] at h
        simp at h

/-! Lemmas about the attempt loop of the HTTP client. -/

theorem httpAttempts_done_eq {Body : Type} (shouldRetry : Bool) (maxAttempts : Nat)
    (retryDelay : Int) (url : String) (net : Nat → FetchOutcome Body)
    (lastMsg : Option String) (attempt fuel : Nat)
    (r : Except (ClientError Body) (HttpSuccess Body))
    (h : attemptOutcome shouldRetry maxAttempts retryDelay url attempt (net attempt)
      = StepResult.done r) :
    httpAttempts shouldRetry maxAttempts retryDelay url net lastMsg attempt (fuel + 1)
      = ⟨r, 1, []⟩ := by
  unfold httpAttempts
  rw [h]

theorem range_map_shift (retryDelay : Int) (a g : Nat) :
    (List.range (g + 1)).map (fun i => retryDelay * ((a + i : Nat) : Int))
      = retryDelay * (a : Int)
          :: (List.range g).map (fun i => retryDelay * ((a + 1 + i : Nat) : Int)) := by
  rw [List.range_succ_eq_map, List.map_cons, List.map_map]
  have hfun : ((fun i : Nat => retryDelay * ((a + i : Nat) : Int)) ∘ Nat.succ)
      = fun i : Nat => retryDelay * ((a + 1 + i : Nat) : Int) := by
    funext i
    show retryDelay * ((a + (i + 1) : Nat) : Int) = retryDelay * ((a + 1 + i : Nat) : Int)
    have harith : a + (i + 1) = a + 1 + i := by omega
    rw [harith]
  rw [hfun]
  have hz : ((a + 0 : Nat) : Int) = (a : Int) := by rw [Nat.add_zero]
  show retryDelay * ((a + 0 : Nat) : Int) :: _ = retryDelay * (a : Int) :: _
  rw [hz]

theorem httpAttempts_run {Body : Type} (shouldRetry : Bool) (maxAttempts : Nat)
    (retryDelay : Int) (url : String) (net : Nat → FetchOutcome Body)
    (r : Except (ClientError Body) (HttpSuccess Body)) :
    ∀ (f a : Nat) (m : Option String),
    (∀ j : Nat, a ≤ j → j < a + f →
      ∃ m2, attemptOutcome shouldRetry maxAttempts retryDelay url j (net j)
        = StepResult.retryAfter (retryDelay * (j : Int)) m2) →
    attemptOutcome shouldRetry maxAttempts retryDelay url (a + f) (net (a + f))
      = StepResult.done r →
    httpAttempts shouldRetry maxAttempts retryDelay url net m a (f + 1)
      = ⟨r, f + 1, (List.range f).map (fun i => retryDelay * ((a + i : Nat) : Int))⟩ := by
  intro f
  induction f with
  | zero =>
    intro a m _ hdone
    rw [Nat.add_zero] at hdone
    unfold httpAttempts
    rw [hdone]
    simp
  | succ f ih =>
    intro a m hretry hdone
    obtain ⟨m2, hstep⟩ := hretry a (le_refl a) (by omega)
    have hdone2 : attemptOutcome shouldRetry maxAttempts retryDelay url ((a + 1) + f)
        (net ((a + 1) + f)) = StepResult.done r := by
      have harith : (a + 1) + f = a + (f + 1) := by omega
      rw [harith]
      exact hdone
    have hrec := ih (a + 1) m2 (fun j hj1 hj2 => hretry j (by omega) (by omega)) hdone2
    unfold httpAttempts
    simp only [hstep]
    rw [hrec, range_map_shift retryDelay a f]

theorem httpAttempts_inv_le {Body : Type} (shouldRetry : Bool) (maxAttempts : Nat)
    (retryDelay : Int) (url : String) (net : Nat → FetchOutcome Body) :
    ∀ (f a : Nat) (m : Option String),
    (httpAttempts shouldRetry maxAttempts retryDelay url net m a f).invocations ≤ f := by
  intro f
  induction f with
  | zero => intro a m; exact le_refl 0
  | succ f ih =>
    intro a m
    unfold httpAttempts
    cases h : attemptOutcome shouldRetry maxAttempts retryDelay url a (net a) with
    | done r =>
      show (1 : Nat) ≤ f + 1
      omega
    | retryAfter d m2 =>
      show (httpAttempts shouldRetry maxAttempts retryDelay url net m2 (a + 1) f).invocations
        + 1 ≤ f + 1
      exact Nat.succ_le_succ (ih (a + 1) m2)

theorem httpAttempts_sleeps_shape {Body : Type} (shouldRetry : Bool) (maxAttempts : Nat)
    (retryDelay : Int) (url : String) (net : Nat → FetchOutcome Body) :
    ∀ (f a : Nat) (m : Option String), maxAttempts < a + f →
    ((httpAttempts shouldRetry maxAttempts retryDelay url net m a f).sleeps
      = (List.range
          ((httpAttempts shouldRetry maxAttempts retryDelay url net m a f).invocations - 1)).map
          (fun i => retryDelay * ((a + i : Nat) : Int)))
    ∧ (1 ≤ f →
      1 ≤ (httpAttempts shouldRetry maxAttempts retryDelay url net m a f).invocations) := by
  intro f
  induction f with
  | zero =>
    intro a m _
    constructor
    · show ([] : List Int) = (List.range (0 - 1)).map _
      simp
    · intro hf
      exact absurd hf (by omega)
  | succ f ih =>
    intro a m hbound
    unfold httpAttempts
    cases h : attemptOutcome shouldRetry maxAttempts retryDelay url a (net a) with
    | done r =>
      constructor
      · show ([] : List Int) = (List.range (1 - 1)).map _
        simp
      · intro _
        exact le_refl 1
    | retryAfter d m2 =>
      obtain ⟨hd, _, hlt⟩ := attemptOutcome_retryAfter_inv shouldRetry maxAttempts
        retryDelay url a (net a) d m2 h
      have hf : 1 ≤ f := by omega
      have hrec := ih (a + 1) m2 (by omega)
      have hinv1 : 1 ≤ (httpAttempts shouldRetry maxAttempts retryDelay url net m2
          (a + 1) f).invocations := hrec.2 hf
      constructor
      · show d :: (httpAttempts shouldRetry maxAttempts retryDelay url net m2
            (a + 1) f).sleeps
          = (List.range ((httpAttempts shouldRetry maxAttempts retryDelay url net m2
              (a + 1) f).invocations + 1 - 1)).map (fun i => retryDelay * ((a + i : Nat) : Int))
        have hsplit : (httpAttempts shouldRetry maxAttempts retryDelay url net m2
            (a + 1) f).invocations + 1 - 1
            = ((httpAttempts shouldRetry maxAttempts retryDelay url net m2
              (a + 1) f).invocations - 1) + 1 := by omega
        rw [hsplit, range_map_shift retryDelay a _, hd, hrec.1]
      · intro _
        show 1 ≤ (httpAttempts shouldRetry maxAttempts retryDelay url net m2
          (a + 1) f).invocations + 1
        omega

theorem not_classifiable_of_not_retryable (e : JsError)
    (h : isRetryableError e.code e.name e.status = false) :
    ¬(e.code = some "ECONNREFUSED" ∨ e.code = some "ENOTFOUND" ∨
      e.name = some "AbortError") := by
  intro hc
  unfold isRetryableError at h
  rcases hc with h1 | h1 | h1 <;> rw [h1] at h <;> simp at h

theorem httpRequest_unfold_false {Body : Type} (method url : String) (retries : Nat)
    (retryDelay : Int) (net : Nat → FetchOutcome Body)
    (hm : isRetryableMethod method = false) :
    httpRequest method url retries retryDelay net
      = httpAttempts false 1 retryDelay url net none 1 1 := by
  simp only [httpRequest]
  rw [hm]
  simp

theorem httpRequest_unfold_true {Body : Type} (method url : String) (retries : Nat)
    (retryDelay : Int) (net : Nat → FetchOutcome Body)
    (hm : isRetryableMethod method = true) :
    httpRequest method url retries retryDelay net
      = httpAttempts true (retries + 1) retryDelay url net none 1 (retries + 1) := by
  simp only [httpRequest]
  rw [hm]
  simp

/-! Claim theorems for the HTTP client. -/

/-- Claim C3: when an exception from the network layer is not retried
(because the method is not retryable, or the attempts are exhausted, or
the error class is not retryable), the client raises the classified
dependency-failure AppError (INTERNAL_ERROR, status 503, original message
preserved in the details) exactly when the exception is connection-refused
(ECONNREFUSED), host-not-found (ENOTFOUND) or the timeout/abort AbortError,
and propagates every other exception unmodified. -/
theorem C3_exception_paths {Body : Type} (method url : String) (retries : Nat)
    (retryDelay : Int) (net : Nat → FetchOutcome Body) (e : JsError) :
    (isRetryableMethod method = false → net 1 = FetchOutcome.exception e →
      ((e.code = some "ECONNREFUSED" ∨ e.code = some "ENOTFOUND" ∨
          e.name = some "AbortError") →
        (httpRequest method url retries retryDelay net).result
          = Except.error (ClientError.appError ErrorCode.INTERNAL_ERROR
              "Service unavailable or timed out" 503
              (ErrDetails.urlOriginalError url (e.message.getD "Unknown error"))))
      ∧ (¬(e.code = some "ECONNREFUSED" ∨ e.code = some "ENOTFOUND" ∨
          e.name = some "AbortError") →
        (httpRequest method url retries retryDelay net).result
          = Except.error (ClientError.jsError e)))
    ∧ (isRetryableMethod method = true →
        (∀ j : Nat, 1 ≤ j → j < retries + 1 → ∃ ej : JsError,
          net j = FetchOutcome.exception ej ∧
          isRetryableError ej.code ej.name ej.status = true) →
        net (retries + 1) = FetchOutcome.exception e →
        ((e.code = some "ECONNREFUSED" ∨ e.code = some "ENOTFOUND" ∨
            e.name = some "AbortError") →
          (httpRequest method url retries retryDelay net).result
            = Except.error (ClientError.appError ErrorCode.INTERNAL_ERROR
                "Service unavailable or timed out" 503
                (ErrDetails.urlOriginalError url (e.message.getD "Unknown error"))))
        ∧ (¬(e.code = some "ECONNREFUSED" ∨ e.code = some "ENOTFOUND" ∨
            e.name = some "AbortError") →
          (httpRequest method url retries retryDelay net).result
            = Except.error (ClientError.jsError e)))
    ∧ (isRetryableMethod method = true → net 1 = FetchOutcome.exception e →
        isRetryableError e.code e.name e.status = false →
        (httpRequest method url retries retryDelay net).result
          = Except.error (ClientError.jsError e)) := by
  refine ⟨?_, ?_, ?_⟩
  · intro hm hnet
    constructor
    · intro hclass
      have hstep : attemptOutcome false 1 retryDelay url 1 (net 1)
          = StepResult.done (Except.error (ClientError.appError ErrorCode.INTERNAL_ERROR
              "Service unavailable or timed out" 503
              (ErrDetails.urlOriginalError url (e.message.getD "Unknown error")))) := by
        rw [hnet]
        exact attemptOutcome_exception_classified false 1 retryDelay url 1 e
          (fun hc => absurd hc.1 Bool.false_ne_true) hclass
      rw [httpRequest_unfold_false method url retries retryDelay net hm,
        httpAttempts_done_eq false 1 retryDelay url net none 1 0 _ hstep]
    · intro hnclass
      have hstep : attemptOutcome false 1 retryDelay url 1 (net 1)
          = StepResult.done (Except.error (ClientError.jsError e)) := by
        rw [hnet]
        exact attemptOutcome_exception_unmodified false 1 retryDelay url 1 e
          (fun hc => absurd hc.1 Bool.false_ne_true) hnclass
      rw [httpRequest_unfold_false method url retries retryDelay net hm,
        httpAttempts_done_eq false 1 retryDelay url net none 1 0 _ hstep]
  · intro hm hchain hnet
    have hretrysteps : ∀ j : Nat, 1 ≤ j → j < 1 + retries →
        ∃ m2, attemptOutcome true (retries + 1) retryDelay url j (net j)
          = StepResult.retryAfter (retryDelay * (j : Int)) m2 := by
      intro j hj1 hj2
      obtain ⟨ej, hnetj, hretj⟩ := hchain j hj1 (by omega)
      refine ⟨ej.message, ?_⟩
      rw [hnetj]
      exact attemptOutcome_exception_retry true (retries + 1) retryDelay url j ej
        ⟨rfl, by omega, hretj⟩
    constructor
    · intro hclass
      have hstep : attemptOutcome true (retries + 1) retryDelay url (1 + retries)
          (net (1 + retries))
          = StepResult.done (Except.error (ClientError.appError ErrorCode.INTERNAL_ERROR
              "Service unavailable or timed out" 503
              (ErrDetails.urlOriginalError url (e.message.getD "Unknown error")))) := by
        have h1r : (1 : Nat) + retries = retries + 1 := by omega
        rw [h1r, hnet]
        exact attemptOutcome_exception_classified true (retries + 1) retryDelay url
          (retries + 1) e (fun hc => absurd hc.2.1 (by omega)) hclass
      have hrun := httpAttempts_run true (retries + 1) retryDelay url net _ retries 1 none
        hretrysteps hstep
      rw [httpRequest_unfold_true method url retries retryDelay net hm, hrun]
    · intro hnclass
      have hstep : attemptOutcome true (retries + 1) retryDelay url (1 + retries)
          (net (1 + retries))
          = StepResult.done (Except.error (ClientError.jsError e)) := by
        have h1r : (1 : Nat) + retries = retries + 1 := by omega
        rw [h1r, hnet]
        exact attemptOutcome_exception_unmodified true (retries + 1) retryDelay url
          (retries + 1) e (fun hc => absurd hc.2.1 (by omega)) hnclass
      have hrun := httpAttempts_run true (retries + 1) retryDelay url net _ retries 1 none
        hretrysteps hstep
      rw [httpRequest_unfold_true method url retries retryDelay net hm, hrun]
  · intro hm hnet hret
    have hnclass := not_classifiable_of_not_retryable e hret
    have hstep : attemptOutcome true (retries + 1) retryDelay url 1 (net 1)
        = StepResult.done (Except.error (ClientError.jsError e)) := by
      rw [hnet]
      exact attemptOutcome_exception_unmodified true (retries + 1) retryDelay url 1 e
        (fun hc => by rw [hret] at hc; exact Bool.false_ne_true hc.2.2) hnclass
    rw [httpRequest_unfold_true method url retries retryDelay net hm,
      httpAttempts_done_eq true (retries + 1) retryDelay url net none 1 retries _ hstep]

/-- Claim C3 witness: a POST (non-retryable) whose single attempt raises a
connection-refused exception yields the classified 503 AppError with the
original message in the details. -/
theorem C3_exception_paths_witness :
    (httpRequest "POST" "u" 2 100
      (fun _ => (FetchOutcome.exception
        ⟨some "ECONNREFUSED", none, some "boom", none⟩ : FetchOutcome Nat))).result
      = Except.error (ClientError.appError ErrorCode.INTERNAL_ERROR
          "Service unavailable or timed out" 503
          (ErrDetails.urlOriginalError "u" "boom")) :=
  ((C3_exception_paths "POST" "u" 2 100
    (fun _ => FetchOutcome.exception ⟨some "ECONNREFUSED", none, some "boom", none⟩)
    ⟨some "ECONNREFUSED", none, some "boom", none⟩).1 (by decide) rfl).1 (Or.inl rfl)

/-- Claim C5: a non-retryable method invokes the network layer exactly
once; every call invokes it at most retries + 1 times; the backoff sleeps
of a run are exactly retryDelay * attemptNumber for each failed attempt in
order; and the concrete scenario of a retryable method with retries = 2,
two retryable 5xx responses and a success on the third attempt returns the
success with exactly 3 invocations and sleeps retryDelay * 1 and
retryDelay * 2. -/
theorem C5_retry_schedule {Body : Type} (method url : String) (retries : Nat)
    (retryDelay : Int) (net : Nat → FetchOutcome Body) :
    (isRetryableMethod method = false →
      (httpRequest method url retries retryDelay net).invocations = 1)
    ∧ (httpRequest method url retries retryDelay net).invocations ≤ retries + 1
    ∧ (httpRequest method url retries retryDelay net).sleeps
        = (List.range
            ((httpRequest method url retries retryDelay net).invocations - 1)).map
            (fun i => retryDelay * ((1 + i : Nat) : Int))
    ∧ (isRetryableMethod method = true → retries = 2 →
        ∀ (s1 s2 ok : Int) (x1 x2 okText : String) (b1 b2 okBody : Body)
          (hd1 hd2 okHd : List (String × String)),
        net 1 = FetchOutcome.response s1 x1 b1 hd1 → 500 ≤ s1 → ¬ s1 = 501 →
        net 2 = FetchOutcome.response s2 x2 b2 hd2 → 500 ≤ s2 → ¬ s2 = 501 →
        net 3 = FetchOutcome.response ok okText okBody okHd → 200 ≤ ok → ok < 300 →
        httpRequest method url retries retryDelay net
          = ⟨Except.ok ⟨okBody, ok, okHd⟩, 3, [retryDelay * 1, retryDelay * 2]⟩) := by
  refine ⟨?_, ?_, ?_, ?_⟩
  · intro hm
    obtain ⟨r, hr⟩ := attemptOutcome_no_retry_done false 1 retryDelay url 1 (net 1)
      (fun hc => absurd hc.1 Bool.false_ne_true)
    rw [httpRequest_unfold_false method url retries retryDelay net hm,
      httpAttempts_done_eq false 1 retryDelay url net none 1 0 r hr]
  · cases hm : isRetryableMethod method with
    | false =>
      rw [httpRequest_unfold_false method url retries retryDelay net hm]
      have hle := httpAttempts_inv_le false 1 retryDelay url net 1 1 none
      omega
    | true =>
      rw [httpRequest_unfold_true method url retries retryDelay net hm]
      exact httpAttempts_inv_le true (retries + 1) retryDelay url net (retries + 1) 1 none
  · cases hm : isRetryableMethod method with
    | false =>
      rw [httpRequest_unfold_false method url retries retryDelay net hm]
      exact (httpAttempts_sleeps_shape false 1 retryDelay url net 1 1 none (by omega)).1
    | true =>
      rw [httpRequest_unfold_true method url retries retryDelay net hm]
      exact (httpAttempts_sleeps_shape true (retries + 1) retryDelay url net
        (retries + 1) 1 none (by omega)).1
  · intro hm hret2 s1 s2 ok x1 x2 okText b1 b2 okBody hd1 hd2 okHd
      hnet1 h5001 h5011 hnet2 h5002 h5012 hnet3 hok1 hok2
    subst hret2
    have hnotok1 : ¬(200 ≤ s1 ∧ s1 < 300) := fun hc => by omega
    have hnotok2 : ¬(200 ≤ s2 ∧ s2 < 300) := fun hc => by omega
    have hretry1 : isRetryableError none none (some s1) = true := by
      simp [isRetryableError, h5001, h5011]
    have hretry2 : isRetryableError none none (some s2) = true := by
      simp [isRetryableError, h5002, h5012]
    have hchain : ∀ j : Nat, 1 ≤ j → j < 1 + 2 →
        ∃ m2, attemptOutcome true 3 retryDelay url j (net j)
          = StepResult.retryAfter (retryDelay * (j : Int)) m2 := by
      intro j hj1 hj2
      interval_cases j
      · refine ⟨some ("HTTP " ++ toString s1 ++ ": " ++ x1), ?_⟩
        rw [hnet1]
        exact attemptOutcome_response_retry true 3 retryDelay url 1 s1 x1 b1 hd1 hnotok1
          ⟨rfl, by omega, hretry1⟩
      · refine ⟨some ("HTTP " ++ toString s2 ++ ": " ++ x2), ?_⟩
        rw [hnet2]
        exact attemptOutcome_response_retry true 3 retryDelay url 2 s2 x2 b2 hd2 hnotok2
          ⟨rfl, by omega, hretry2⟩
    have hdone : attemptOutcome true 3 retryDelay url (1 + 2) (net (1 + 2))
        = StepResult.done (Except.ok ⟨okBody, ok, okHd⟩) := by
      show attemptOutcome true 3 retryDelay url 3 (net 3) = _
      rw [hnet3]
      exact attemptOutcome_response_ok true 3 retryDelay url 3 ok okText okBody okHd
        ⟨hok1, hok2⟩
    have hrun := httpAttempts_run true 3 retryDelay url net
      (Except.ok ⟨okBody, ok, okHd⟩) 2 1 none hchain hdone
    rw [httpRequest_unfold_true method url 2 retryDelay net hm]
    rw [hrun]
    have hmap : (List.range 2).map (fun i => retryDelay * ((1 + i : Nat) : Int))
        = [retryDelay * 1, retryDelay * 2] := by
      show [retryDelay * ((1 + 0 : Nat) : Int), retryDelay * ((1 + 1 : Nat) : Int)]
        = [retryDelay * 1, retryDelay * 2]
      norm_num
    rw [hmap]

/-- Claim C5 witness: a GET with retries = 2 and retryDelay = 100 whose
first two attempts return 503 and whose third returns 200 succeeds with
exactly 3 network invocations and sleeps 100 and 200. -/
theorem C5_retry_schedule_witness :
    httpRequest "GET" "u" 2 100
      (fun a => if a ≤ 2 then FetchOutcome.response 503 "SU" (0 : Nat) []
        else FetchOutcome.response 200 "OK" 7 [])
      = ⟨Except.ok ⟨7, 200, []⟩, 3, [100 * 1, 100 * 2]⟩ :=
  (C5_retry_schedule "GET" "u" 2 100
    (fun a => if a ≤ 2 then FetchOutcome.response 503 "SU" (0 : Nat) []
      else FetchOutcome.response 200 "OK" 7 [])).2.2.2 (by decide) rfl
    503 503 200 "SU" "SU" "OK" 0 0 7 [] [] []
    rfl (by decide) (by decide) rfl (by decide) (by decide) rfl (by decide) (by decide)

/-- Claim C6: a response with a failure status below 500 is never retried
(one invocation, no sleeps, for every method) and the raised error is the
raw HTTP error carrying the original status and body, not the 503
dependency-failure AppError. -/
theorem C6_client_error_preserved {Body : Type} (method url : String) (retries : Nat)
    (retryDelay : Int) (net : Nat → FetchOutcome Body) (status : Int)
    (statusText : String) (data : Body) (headers : List (String × String))
    (hnet : net 1 = FetchOutcome.response status statusText data headers)
    (hfail : ¬(200 ≤ status ∧ status < 300))
    (hlt : status < 500) :
    httpRequest method url retries retryDelay net
      = ⟨Except.error (ClientError.httpError status statusText data), 1, []⟩ := by
  have hret : isRetryableError none none (some status) = false := by
    have hn : ¬ (500 : Int) ≤ status := by omega
    simp [isRetryableError, hn]
  have hn500 : ¬ (500 : Int) ≤ status := by omega
  cases hm : isRetryableMethod method with
  | false =>
    have hstep : attemptOutcome false 1 retryDelay url 1 (net 1)
        = StepResult.done (Except.error (ClientError.httpError status statusText data)) := by
      rw [hnet]
      exact attemptOutcome_response_client false 1 retryDelay url 1 status statusText data
        headers hfail (fun hc => by rw [hret] at hc; exact Bool.false_ne_true hc.2.2) hn500
    rw [httpRequest_unfold_false method url retries retryDelay net hm,
      httpAttempts_done_eq false 1 retryDelay url net none 1 0 _ hstep]
  | true =>
    have hstep : attemptOutcome true (retries + 1) retryDelay url 1 (net 1)
        = StepResult.done (Except.error (ClientError.httpError status statusText data)) := by
      rw [hnet]
      exact attemptOutcome_response_client true (retries + 1) retryDelay url 1 status
        statusText data headers hfail
        (fun hc => by rw [hret] at hc; exact Bool.false_ne_true hc.2.2) hn500
    rw [httpRequest_unfold_true method url retries retryDelay net hm,
      httpAttempts_done_eq true (retries + 1) retryDelay url net none 1 retries _ hstep]

/-- Claim C6 witness: a GET receiving 404 makes exactly one invocation and
raises the raw 404 error with its body. -/
theorem C6_client_error_preserved_witness :
    httpRequest "GET" "u" 2 100
      (fun _ => FetchOutcome.response 404 "Not Found" (5 : Nat) [])
      = ⟨Except.error (ClientError.httpError 404 "Not Found" 5), 1, []⟩ :=
  C6_client_error_preserved "GET" "u" 2 100
    (fun _ => FetchOutcome.response 404 "Not Found" (5 : Nat) []) 404 "Not Found" 5 []
    rfl (by decide) (by decide)
